import Mathlib

/-!
Verification of the fumadocs-pdf-export route handler against its
specification.  The TypeScript source (src/route-handler.ts, the export
button component and the preset table) is shallowly embedded below:
strings handled character-wise are `List Char`, DOM trees are a rose
tree of element data, browser calls that can fail are oracles returning
an explicit outcome, and promise chains are `Except`-style values.
-/

/-! ## Character-list strings and the JavaScript string operations used
by `parseCookies` (trim, includes, split, join) and the filename rules. -/

abbrev Str := List Char

/-- Whitespace for the model of `String.prototype.trim`. -/
def isJsWhitespace (c : Char) : Bool :=
  c = ' ' || c = '\t' || c = '\n' || c = '\r' || c = '\x0b' || c = '\x0c'

/-- Model of `s.trimStart()` (also the leading half of `s.trim()`). -/
def jsTrimStart (s : Str) : Str := s.dropWhile isJsWhitespace

/-- Model of `s.trimEnd()` (the trailing half of `s.trim()`). -/
def jsTrimEnd (s : Str) : Str := (s.reverse.dropWhile isJsWhitespace).reverse

/-- Model of `s.trim()`. -/
def jsTrim (s : Str) : Str := jsTrimEnd (jsTrimStart s)

/-- Model of `s.includes(sep)` for a one-character needle. -/
def hasChar (sep : Char) : Str → Bool
  | [] => false
  | c :: cs => c = sep || hasChar sep cs

/-- Model of `s.split(sep)` for a one-character separator: JavaScript
returns at least one (possibly empty) field and one extra field per
separator occurrence. -/
def splitOnChar (sep : Char) : Str → List Str
  | [] => [[]]
  | c :: cs =>
    if c = sep then [] :: splitOnChar sep cs
    else
      match splitOnChar sep cs with
      | [] => [[c]]
      | r :: rs => (c :: r) :: rs

/-- Model of `parts.join(sep)` for a one-character separator. -/
def joinChar (sep : Char) : List Str → Str
  | [] => []
  | [s] => s
  | s :: ss => s ++ sep :: joinChar sep ss

/-! ## Cookie Translator (`parseCookies`, route-handler.ts lines 172-222) -/

/-- One Puppeteer cookie object as built by `parseCookies`: the
`__Host-` and `__Secure-` branches carry a `url` and no `domain`, the
regular branch carries a `domain` and no `url`. -/
structure CookieRecord where
  name : Str
  value : Str
  url : Option Str
  domain : Option Str
  path : Str
  secure : Bool
deriving DecidableEq, Repr, Inhabited

/-- The `__Host-` cookie-name marker. -/
def hostMark : Str := "__Host-".toList

/-- The `__Secure-` cookie-name marker. -/
def secureMark : Str := "__Secure-".toList

/-- Model of `name.startsWith(pre)`. -/
def hasPre : Str → Str → Bool
  | [], _ => true
  | _ :: _, [] => false
  | p :: ps, c :: cs => p = c && hasPre ps cs

/-- Contiguous-substring test (the CSS attribute-contains match). -/
def strHasSub (needle : Str) : Str → Bool
  | [] => needle.isEmpty
  | c :: cs => hasPre needle (c :: cs) || strHasSub needle cs

/-- The body of the `.map` callback in `parseCookies`: one raw
`;`-separated field in, one cookie record or `null` out. -/
def parseOneCookie (domain : Str) (isSecure : Bool) (baseUrl : Str)
    (cookie : Str) : Option CookieRecord :=
  let trimmed := jsTrim cookie
  if trimmed.isEmpty || !(hasChar '=' trimmed) then none
  else
    match splitOnChar '=' trimmed with
    | [] => none
    | name :: valueParts =>
      let cookieName := jsTrim name
      let cookieValue := joinChar '=' valueParts
      if cookieName.isEmpty then none
      else if hasPre hostMark cookieName then
        some ⟨cookieName, cookieValue, some baseUrl, none, ['/'], true⟩
      else if hasPre secureMark cookieName then
        some ⟨cookieName, cookieValue, some baseUrl, none, ['/'], true⟩
      else
        some ⟨cookieName, cookieValue, none, some domain, ['/'], isSecure⟩

/-- `parseCookies(cookieHeader, domain, isSecure, baseUrl)`: split on
`;`, map each field to a record or `null`, drop the `null` entries
(`reduceOption` is the map-then-filter of the source). -/
def parseCookies (cookieHeader domain : Str) (isSecure : Bool)
    (baseUrl : Str) : List CookieRecord :=
  ((splitOnChar ';' cookieHeader).map
    (parseOneCookie domain isSecure baseUrl)).reduceOption

/-! ## Lemmas about the string model -/

theorem splitOnChar_ne_nil (sep : Char) (s : Str) : splitOnChar sep s ≠ [] := by
  induction s with
  | nil => simp [splitOnChar]
  | cons c cs ih =>
    simp only [splitOnChar]
    split
    · simp
    · rcases h : splitOnChar sep cs with _ | ⟨r, rs⟩ <;> simp

theorem joinChar_cons (sep : Char) (a : Str) (rest : List Str) (h : rest ≠ []) :
    joinChar sep (a :: rest) = a ++ sep :: joinChar sep rest := by
  rcases rest with _ | ⟨b, bs⟩
  · exact absurd rfl h
  · rfl

theorem joinChar_splitOnChar (sep : Char) (s : Str) :
    joinChar sep (splitOnChar sep s) = s := by
  induction s with
  | nil => rfl
  | cons c cs ih =>
    simp only [splitOnChar]
    split
    · rename_i hc
      rw [joinChar_cons sep _ _ (splitOnChar_ne_nil sep cs), ih]
      simp [hc]
    · rcases h : splitOnChar sep cs with _ | ⟨r, rs⟩
      · exact absurd h (splitOnChar_ne_nil sep cs)
      · rw [h] at ih
        rcases rs with _ | ⟨r2, rs2⟩
        · simpa [joinChar] using congrArg (c :: ·) ih
        · rw [joinChar_cons sep _ _ (by simp)] at ih ⊢
          simpa using congrArg (c :: ·) ih

theorem splitOnChar_append (sep : Char) (pre suf : Str)
    (h : hasChar sep pre = false) :
    splitOnChar sep (pre ++ sep :: suf) = pre :: splitOnChar sep suf := by
  induction pre with
  | nil => simp [splitOnChar]
  | cons c cs ih =>
    simp only [hasChar, Bool.or_eq_false_iff, decide_eq_false_iff_not] at h
    simp only [List.cons_append, splitOnChar, if_neg h.1, List.append_eq]
    rw [ih h.2]

/-! ## Properties of the Cookie Translator -/

theorem parseOneCookie_props (domain : Str) (isSecure : Bool) (baseUrl : Str)
    (s : Str) (c : CookieRecord)
    (h : parseOneCookie domain isSecure baseUrl s = some c) :
    c.path = ['/'] ∧
    (hasPre hostMark c.name = true →
      c.url = some baseUrl ∧ c.secure = true ∧ c.domain = none) ∧
    (hasPre hostMark c.name = false → hasPre secureMark c.name = true →
      c.url = some baseUrl ∧ c.secure = true ∧ c.domain = none) ∧
    (hasPre hostMark c.name = false → hasPre secureMark c.name = false →
      c.domain = some domain ∧ c.secure = isSecure ∧ c.url = none) := by
  simp only [parseOneCookie] at h
  split at h
  · simp at h
  · split at h
    · simp at h
    · split at h
      · simp at h
      · split at h
        · injection h with h
          subst h
          refine ⟨rfl, ?_, ?_, ?_⟩ <;> intros <;> simp_all
        · split at h
          · injection h with h
            subst h
            refine ⟨rfl, ?_, ?_, ?_⟩ <;> intros <;> simp_all
          · injection h with h
            subst h
            refine ⟨rfl, ?_, ?_, ?_⟩ <;> intros <;> simp_all

/-- C1: every record produced by `parseCookies` follows the prefix rule
table (`__Host-` gives full-URL scope, path `/`, secure forced true and
no domain; `__Secure-` gives full-URL scope, path `/`, secure forced
true; otherwise bare-host domain, path `/`, secure equal to the inbound
flag); a pair with no `=` or an empty trimmed name produces no record;
and the output is the in-order map-and-filter over the `;`-split
fields, so there is one record per valid pair, in input order.  The
embedding is a total function, so no input can raise. -/
theorem parseCookies_scope_rules (header domain : Str) (isSecure : Bool)
    (baseUrl : Str) :
    (∀ c ∈ parseCookies header domain isSecure baseUrl,
      c.path = ['/'] ∧
      (hasPre hostMark c.name = true →
        c.url = some baseUrl ∧ c.secure = true ∧ c.domain = none) ∧
      (hasPre hostMark c.name = false → hasPre secureMark c.name = true →
        c.url = some baseUrl ∧ c.secure = true ∧ c.domain = none) ∧
      (hasPre hostMark c.name = false → hasPre secureMark c.name = false →
        c.domain = some domain ∧ c.secure = isSecure ∧ c.url = none)) ∧
    (∀ s, hasChar '=' (jsTrim s) = false ∨
        jsTrim ((splitOnChar '=' (jsTrim s)).headI) = [] →
      parseOneCookie domain isSecure baseUrl s = none) ∧
    parseCookies header domain isSecure baseUrl =
      ((splitOnChar ';' header).map
        (parseOneCookie domain isSecure baseUrl)).reduceOption := by
  refine ⟨?_, ?_, rfl⟩
  · intro c hc
    rw [parseCookies, List.reduceOption_mem_iff, List.mem_map] at hc
    obtain ⟨s, _, hs⟩ := hc
    exact parseOneCookie_props domain isSecure baseUrl s c hs
  · intro s h
    rcases h with h | h
    · simp only [parseOneCookie]
      split
      · rfl
      · rename_i hcond
        exact absurd (by simp [h]) hcond
    · simp only [parseOneCookie]
      split
      · rfl
      · rcases hsp : splitOnChar '=' (jsTrim s) with _ | ⟨nm, vps⟩
        · rfl
        · rw [hsp, List.headI_cons] at h
          simp [h]

/-- Witness for C1 at the concrete header
`"sid=abc; __Secure-tok=1"` against host `example.com` over an
insecure connection: the regular cookie is host-scoped and insecure,
the `__Secure-` cookie is URL-scoped and secure, and a pair with no
`=` yields no record. -/
theorem parseCookies_scope_rules_witness :
    ((parseCookies ("sid=abc; __Secure-tok=1".toList) ("example.com".toList)
        false ("http://example.com".toList)).headI.domain
      = some ("example.com".toList) ∧
     (parseCookies ("sid=abc; __Secure-tok=1".toList) ("example.com".toList)
        false ("http://example.com".toList)).headI.secure = false) ∧
    parseOneCookie ("example.com".toList) false ("http://example.com".toList)
      (" junk ".toList) = none := by
  have h := parseCookies_scope_rules ("sid=abc; __Secure-tok=1".toList)
    ("example.com".toList) false ("http://example.com".toList)
  refine ⟨?_, h.2.1 (" junk ".toList) (Or.inl (by decide))⟩
  have hm := h.1 _ (show (parseCookies ("sid=abc; __Secure-tok=1".toList)
    ("example.com".toList) false ("http://example.com".toList)).headI ∈
      parseCookies ("sid=abc; __Secure-tok=1".toList) ("example.com".toList)
        false ("http://example.com".toList) from by decide)
  have hreg := hm.2.2.2 (by decide) (by decide)
  exact ⟨hreg.1, hreg.2.1⟩


theorem hasChar_append_sep (sep : Char) (pre suf : Str) :
    hasChar sep (pre ++ sep :: suf) = true := by
  induction pre with
  | nil => simp [hasChar]
  | cons c cs ih => simp [hasChar, ih]

/-- C9: `parseCookies` splits a pair on its first `=` only: when the
trimmed pair decomposes as `pre ++ [=] ++ suf` with no `=` in `pre`
and a nonempty trimmed name, the produced record has name `jsTrim pre`
and value exactly `suf`, embedded `=` characters preserved; in
particular an empty remainder gives the empty-string value. -/
theorem parseCookies_first_eq_split (domain : Str) (isSecure : Bool)
    (baseUrl : Str) (pair pre suf : Str)
    (hdec : jsTrim pair = pre ++ '=' :: suf)
    (hpre : hasChar '=' pre = false)
    (hname : jsTrim pre ≠ []) :
    (parseOneCookie domain isSecure baseUrl pair).map
        (fun c => (c.name, c.value)) = some (jsTrim pre, suf) ∧
    (suf = [] →
      (parseOneCookie domain isSecure baseUrl pair).map
        (fun c => c.value) = some []) := by
  have hsplit : splitOnChar '=' (jsTrim pair) = pre :: splitOnChar '=' suf := by
    rw [hdec]; exact splitOnChar_append '=' pre suf hpre
  have hne : (jsTrim pair).isEmpty = false := by
    rw [hdec]; rcases pre with _ | ⟨c, cs⟩ <;> rfl
  have hin : hasChar '=' (jsTrim pair) = true := by
    rw [hdec]; exact hasChar_append_sep '=' pre suf
  have hval : joinChar '=' (splitOnChar '=' suf) = suf :=
    joinChar_splitOnChar '=' suf
  have hnm : (jsTrim pre).isEmpty = false := by
    rcases h : jsTrim pre with _ | _
    · exact absurd h hname
    · rfl
  have hmain : (parseOneCookie domain isSecure baseUrl pair).map
      (fun c => (c.name, c.value)) = some (jsTrim pre, suf) := by
    simp only [parseOneCookie, hsplit, hval]
    split
    · rename_i hcond
      rw [hne, hin] at hcond
      simp at hcond
    · split
      · rename_i h
        rw [hnm] at h
        simp at h
      · split
        · rfl
        · split <;> rfl
  refine ⟨hmain, fun hsuf => ?_⟩
  have hcomp : (parseOneCookie domain isSecure baseUrl pair).map (fun c => c.value)
      = ((parseOneCookie domain isSecure baseUrl pair).map
          (fun c => (c.name, c.value))).map Prod.snd := by
    cases parseOneCookie domain isSecure baseUrl pair <;> rfl
  rw [hcomp, hmain, hsuf]
  rfl

/-- Witness for C9 at the concrete pair `tok=a=b`: the name is `tok`
and the value keeps the embedded `=`; and at `tok=` the value is the
empty string. -/
theorem parseCookies_first_eq_split_witness :
    (parseOneCookie ("h".toList) false ("http://h".toList)
        ("tok=a=b".toList)).map (fun c => (c.name, c.value))
      = some ("tok".toList, "a=b".toList) ∧
    (parseOneCookie ("h".toList) false ("http://h".toList)
        ("tok=".toList)).map (fun c => c.value) = some [] := by
  refine ⟨?_, ?_⟩
  · have h := parseCookies_first_eq_split ("h".toList) false ("http://h".toList)
      ("tok=a=b".toList) ("tok".toList) ("a=b".toList)
      (by decide) (by decide) (by decide)
    exact (by decide : jsTrim ("tok".toList) = "tok".toList) ▸ h.1
  · have h := parseCookies_first_eq_split ("h".toList) false ("http://h".toList)
      ("tok=".toList) ("tok".toList) []
      (by decide) (by decide) (by decide)
    exact h.2 rfl

/-! ## Configuration resolution (`createPdfExportHandler`, lines 6-66,
and the preset table from types.ts).  `Option` fields model key
presence in the TypeScript options object; object spread with the
defaults therefore becomes field-wise `getD`. -/

/-- A fully resolved margin quadruple. -/
structure Margins where
  top : Nat
  right : Nat
  bottom : Nat
  left : Nat
deriving DecidableEq, Repr

/-- The `margins` member of `PdfExportOptions`: every side optional. -/
structure PartialMargins where
  top : Option Nat
  right : Option Nat
  bottom : Option Nat
  left : Option Nat
deriving DecidableEq, Repr

/-- `PdfExportOptions` from types.ts: every field optional.
`puppeteerOptions` is outside the claims and kept abstract. -/
structure PdfExportOptions where
  contentSelector : Option String := none
  removeSelectors : Option (List String) := none
  expandAccordions : Option Bool := none
  accordionTriggerSelectors : Option (List String) := none
  accordionContentSelectors : Option (List String) := none
  triggerLazyImages : Option Bool := none
  pageWidth : Option Nat := none
  margins : Option PartialMargins := none
  timeout : Option Nat := none
  puppeteerOptions : Option Unit := none
  beforePdfGeneration : Option String := none
deriving DecidableEq, Repr

/-- The `Required<Omit<...>>` default table (route-handler.ts lines
6-23). -/
structure DefaultTable where
  contentSelector : String
  removeSelectors : List String
  expandAccordions : Bool
  accordionTriggerSelectors : List String
  accordionContentSelectors : List String
  triggerLazyImages : Bool
  pageWidth : Nat
  margins : Margins
  timeout : Nat
deriving DecidableEq, Repr

/-- `defaultOptions` from route-handler.ts. -/
def defaultOptions : DefaultTable :=
  { contentSelector := "article"
    removeSelectors := ["#nd-sidebar", "#nd-toc", "nav", ".print-hidden"]
    expandAccordions := true
    accordionTriggerSelectors :=
      ["button[data-state=\"closed\"]",
       "[data-state=\"closed\"] > button",
       "[data-state=\"closed\"][role=\"button\"]"]
    accordionContentSelectors :=
      ["[data-radix-accordion-content]", "[data-radix-collapsible-content]"]
    triggerLazyImages := true
    pageWidth := 850
    margins := ⟨30, 30, 30, 30⟩
    timeout := 30000 }

/-- The `config` object built inside `createPdfExportHandler`. -/
structure ResolvedConfig where
  contentSelector : String
  removeSelectors : List String
  expandAccordions : Bool
  accordionTriggerSelectors : List String
  accordionContentSelectors : List String
  triggerLazyImages : Bool
  pageWidth : Nat
  margins : Margins
  timeout : Nat
  puppeteerOptions : Option Unit
  beforePdfGeneration : Option String
deriving DecidableEq, Repr

/-- The nested spread
`margins: { ...defaultOptions.margins, ...resolvedOptions.margins }`. -/
def mergeMargins (m : Option PartialMargins) : Margins :=
  match m with
  | none => defaultOptions.margins
  | some p =>
    { top := p.top.getD defaultOptions.margins.top
      right := p.right.getD defaultOptions.margins.right
      bottom := p.bottom.getD defaultOptions.margins.bottom
      left := p.left.getD defaultOptions.margins.left }

/-- The spread `{ ...defaultOptions, ...resolvedOptions, margins: ... }`. -/
def resolveConfig (o : PdfExportOptions) : ResolvedConfig :=
  { contentSelector := o.contentSelector.getD defaultOptions.contentSelector
    removeSelectors := o.removeSelectors.getD defaultOptions.removeSelectors
    expandAccordions := o.expandAccordions.getD defaultOptions.expandAccordions
    accordionTriggerSelectors :=
      o.accordionTriggerSelectors.getD defaultOptions.accordionTriggerSelectors
    accordionContentSelectors :=
      o.accordionContentSelectors.getD defaultOptions.accordionContentSelectors
    triggerLazyImages := o.triggerLazyImages.getD defaultOptions.triggerLazyImages
    pageWidth := o.pageWidth.getD defaultOptions.pageWidth
    margins := mergeMargins o.margins
    timeout := o.timeout.getD defaultOptions.timeout
    puppeteerOptions := o.puppeteerOptions
    beforePdfGeneration := o.beforePdfGeneration }

/-- Names of the preset table from types.ts. -/
inductive PresetName where
  | fumadocs
  | docusaurus
  | nextra
deriving DecidableEq, Repr

/-- One entry of the preset table: the four selector fields. -/
structure Preset where
  contentSelector : String
  removeSelectors : List String
  accordionTriggerSelectors : List String
  accordionContentSelectors : List String
deriving DecidableEq, Repr

/-- The `presets` table from types.ts. -/
def presets : PresetName → Preset
  | .fumadocs =>
    { contentSelector := "article"
      removeSelectors := ["#nd-sidebar", "#nd-toc", "nav", ".print-hidden"]
      accordionTriggerSelectors :=
        ["button[data-state=\"closed\"]",
         "[data-state=\"closed\"] > button",
         "[data-state=\"closed\"][role=\"button\"]"]
      accordionContentSelectors :=
        ["[data-radix-accordion-content]", "[data-radix-collapsible-content]"] }
  | .docusaurus =>
    { contentSelector := "article"
      removeSelectors :=
        [".theme-doc-sidebar-container", ".table-of-contents", "nav",
         ".print-hidden"]
      accordionTriggerSelectors :=
        [".collapsible-button", "button[aria-expanded=\"false\"]"]
      accordionContentSelectors := [".collapsible-content"] }
  | .nextra =>
    { contentSelector := "article"
      removeSelectors :=
        ["nav", "aside", ".nextra-sidebar", ".nextra-toc", ".print-hidden"]
      accordionTriggerSelectors := ["button[data-state=\"closed\"]"]
      accordionContentSelectors := ["[data-radix-collapsible-content]"] }

/-- The options object built from a preset at the top of
`createPdfExportHandler` (`{ ...preset }` with the arrays copied;
copying is the identity in value semantics). -/
def presetToOptions (p : Preset) : PdfExportOptions :=
  { contentSelector := some p.contentSelector
    removeSelectors := some p.removeSelectors
    accordionTriggerSelectors := some p.accordionTriggerSelectors
    accordionContentSelectors := some p.accordionContentSelectors }

/-- The argument of `createPdfExportHandler`: a preset name, an
options object, or nothing. -/
inductive HandlerArg where
  | presetArg (n : PresetName)
  | optionsArg (o : PdfExportOptions)
  | noArg
deriving DecidableEq, Repr

/-- The `resolvedOptions` local of `createPdfExportHandler`
(the no-argument fallback is the empty options object). -/
def resolveHandlerOptions : HandlerArg → PdfExportOptions
  | .presetArg n => presetToOptions (presets n)
  | .optionsArg o => o
  | .noArg => {}

/-- The configuration a handler instance is built with. -/
def createHandlerConfig (arg : HandlerArg) : ResolvedConfig :=
  resolveConfig (resolveHandlerOptions arg)

/-- Spread of explicit option fields over a base options object
(`{ ...base, ...extra }`): the formalisation of the claim phrase
"supplying its field values as the base configuration, overridable by
explicit fields". -/
def overlayOpts (base extra : PdfExportOptions) : PdfExportOptions :=
  { contentSelector := extra.contentSelector.orElse fun _ => base.contentSelector
    removeSelectors := extra.removeSelectors.orElse fun _ => base.removeSelectors
    expandAccordions := extra.expandAccordions.orElse fun _ => base.expandAccordions
    accordionTriggerSelectors :=
      extra.accordionTriggerSelectors.orElse fun _ => base.accordionTriggerSelectors
    accordionContentSelectors :=
      extra.accordionContentSelectors.orElse fun _ => base.accordionContentSelectors
    triggerLazyImages := extra.triggerLazyImages.orElse fun _ => base.triggerLazyImages
    pageWidth := extra.pageWidth.orElse fun _ => base.pageWidth
    margins := extra.margins.orElse fun _ => base.margins
    timeout := extra.timeout.orElse fun _ => base.timeout
    puppeteerOptions := extra.puppeteerOptions.orElse fun _ => base.puppeteerOptions
    beforePdfGeneration :=
      extra.beforePdfGeneration.orElse fun _ => base.beforePdfGeneration }

/-- C7: building a handler from a preset name resolves to exactly the
configuration obtained from an options object holding the preset's
field values; the preset's four selector fields override the defaults,
every other field keeps its documented default; and explicit fields
laid over the preset's values win field-wise. -/
theorem preset_equiv_options (n : PresetName) :
    createHandlerConfig (.presetArg n)
      = createHandlerConfig (.optionsArg (presetToOptions (presets n))) ∧
    (createHandlerConfig (.presetArg n)).contentSelector
      = (presets n).contentSelector ∧
    (createHandlerConfig (.presetArg n)).removeSelectors
      = (presets n).removeSelectors ∧
    (createHandlerConfig (.presetArg n)).accordionTriggerSelectors
      = (presets n).accordionTriggerSelectors ∧
    (createHandlerConfig (.presetArg n)).accordionContentSelectors
      = (presets n).accordionContentSelectors ∧
    (createHandlerConfig (.presetArg n)).pageWidth = defaultOptions.pageWidth ∧
    (createHandlerConfig (.presetArg n)).margins = defaultOptions.margins ∧
    (createHandlerConfig (.presetArg n)).timeout = defaultOptions.timeout ∧
    (createHandlerConfig (.presetArg n)).expandAccordions
      = defaultOptions.expandAccordions ∧
    (createHandlerConfig (.presetArg n)).triggerLazyImages
      = defaultOptions.triggerLazyImages ∧
    ∀ extra : PdfExportOptions,
      (resolveConfig (overlayOpts (presetToOptions (presets n)) extra)).contentSelector
        = extra.contentSelector.getD (presets n).contentSelector ∧
      (resolveConfig (overlayOpts (presetToOptions (presets n)) extra)).removeSelectors
        = extra.removeSelectors.getD (presets n).removeSelectors ∧
      (resolveConfig (overlayOpts (presetToOptions (presets n)) extra)).accordionTriggerSelectors
        = extra.accordionTriggerSelectors.getD (presets n).accordionTriggerSelectors ∧
      (resolveConfig (overlayOpts (presetToOptions (presets n)) extra)).accordionContentSelectors
        = extra.accordionContentSelectors.getD (presets n).accordionContentSelectors := by
  refine ⟨rfl, rfl, rfl, rfl, rfl, rfl, rfl, rfl, rfl, rfl, ?_⟩
  intro extra
  refine ⟨?_, ?_, ?_, ?_⟩
  · rcases h : extra.contentSelector with _ | v <;>
      simp [resolveConfig, overlayOpts, presetToOptions, h, Option.orElse]
  · rcases h : extra.removeSelectors with _ | v <;>
      simp [resolveConfig, overlayOpts, presetToOptions, h, Option.orElse]
  · rcases h : extra.accordionTriggerSelectors with _ | v <;>
      simp [resolveConfig, overlayOpts, presetToOptions, h, Option.orElse]
  · rcases h : extra.accordionContentSelectors with _ | v <;>
      simp [resolveConfig, overlayOpts, presetToOptions, h, Option.orElse]

/-- C10: when an options object supplies a margins object, resolution
merges it field-wise with the defaults: each supplied side takes the
supplied value, each unsupplied side keeps the default 30. -/
theorem margins_fieldwise_merge (o : PdfExportOptions) (p : PartialMargins)
    (h : o.margins = some p) :
    ((p.top = none → (resolveConfig o).margins.top = 30) ∧
     (∀ v, p.top = some v → (resolveConfig o).margins.top = v)) ∧
    ((p.right = none → (resolveConfig o).margins.right = 30) ∧
     (∀ v, p.right = some v → (resolveConfig o).margins.right = v)) ∧
    ((p.bottom = none → (resolveConfig o).margins.bottom = 30) ∧
     (∀ v, p.bottom = some v → (resolveConfig o).margins.bottom = v)) ∧
    ((p.left = none → (resolveConfig o).margins.left = 30) ∧
     (∀ v, p.left = some v → (resolveConfig o).margins.left = v)) := by
  simp only [resolveConfig, mergeMargins, h]
  refine ⟨⟨?_, ?_⟩, ⟨?_, ?_⟩, ⟨?_, ?_⟩, ⟨?_, ?_⟩⟩ <;>
    first
      | (intro h1; rw [h1]; rfl)
      | (intro v h1; rw [h1]; rfl)

/-- Witness for C10: supplying only the top margin keeps the three
other sides at the default 30. -/
theorem margins_fieldwise_merge_witness :
    (resolveConfig { margins := some ⟨some 5, none, none, none⟩ }).margins.top = 5 ∧
    (resolveConfig { margins := some ⟨some 5, none, none, none⟩ }).margins.right = 30 ∧
    (resolveConfig { margins := some ⟨some 5, none, none, none⟩ }).margins.bottom = 30 ∧
    (resolveConfig { margins := some ⟨some 5, none, none, none⟩ }).margins.left = 30 := by
  have h := margins_fieldwise_merge { margins := some ⟨some 5, none, none, none⟩ }
    ⟨some 5, none, none, none⟩ rfl
  exact ⟨h.1.2 5 rfl, h.2.1.1 rfl, h.2.2.1.1 rfl, h.2.2.2.1 rfl⟩

/-! ## Filename derivation (route-handler.ts line 148 and the export
button component). -/

/-- `path.replace` with the global slash pattern: every `/` becomes
`-`. -/
def replaceSlashes (path : Str) : Str :=
  path.map fun c => if c = '/' then '-' else c

/-- `.replace` with the anchored dash pattern: strip one leading `-`
if present. -/
def stripLeadingDash : Str → Str
  | '-' :: rest => rest
  | s => s

/-- The derived base filename, falling back to `document` when the
stripped result is empty. -/
def filenameBase (path : Str) : Str :=
  let stripped := stripLeadingDash (replaceSlashes path)
  if stripped.isEmpty then "document".toList else stripped

/-- The attachment filename placed in the Content-Disposition header
by the route handler. -/
def serverDownloadName (path : Str) : Str :=
  filenameBase path ++ ".pdf".toList

/-- `a.download` in the export button: the conditional is a JavaScript
truthiness test on the filename prop, so a missing prop and an
explicitly supplied empty string both fall back to the same derivation
on the current location path; only a nonempty filename wins. -/
def exportButtonDownloadName (filename : Option Str) (currentPath : Str) : Str :=
  match filename with
  | some f =>
    if f.isEmpty then filenameBase currentPath ++ ".pdf".toList
    else f ++ ".pdf".toList
  | none => filenameBase currentPath ++ ".pdf".toList

/-- Counterexample to C6 as stated: the export button tests the
filename prop for truthiness, so the explicit empty filename string
does not yield the empty name plus `.pdf`; on path `/guides/setup` it
falls back to the path-derived `guides-setup.pdf`. -/
theorem filename_claim_counterexample :
    exportButtonDownloadName (some []) "/guides/setup".toList
      = "guides-setup.pdf".toList ∧
    exportButtonDownloadName (some []) "/guides/setup".toList
      ≠ ([] : Str) ++ ".pdf".toList := by
  refine ⟨by decide, by decide⟩

/-- C6 (amended): the download filename is the path with every `/`
replaced by `-`, one leading dash stripped and `.pdf` appended,
falling back to `document.pdf` when the stripped result is empty;
`/guides/setup` gives `guides-setup.pdf` and `/` gives `document.pdf`;
an explicit nonempty button filename such as `report` gives
`report.pdf` regardless of the path; an explicit empty filename string
is falsy, so the button falls back to the path derivation exactly as
when no filename is supplied; and that fallback agrees with the server
derivation on every path. -/
theorem filename_rules :
    (∀ path : Str, stripLeadingDash (replaceSlashes path) ≠ [] →
      serverDownloadName path
        = stripLeadingDash (replaceSlashes path) ++ ".pdf".toList) ∧
    (∀ path : Str, stripLeadingDash (replaceSlashes path) = [] →
      serverDownloadName path = "document.pdf".toList) ∧
    serverDownloadName "/guides/setup".toList = "guides-setup.pdf".toList ∧
    serverDownloadName "/".toList = "document.pdf".toList ∧
    exportButtonDownloadName (some "report".toList) "/guides/setup".toList
      = "report.pdf".toList ∧
    (∀ f p : Str, f ≠ [] →
      exportButtonDownloadName (some f) p = f ++ ".pdf".toList) ∧
    (∀ p : Str, exportButtonDownloadName (some []) p = serverDownloadName p) ∧
    (∀ p : Str, exportButtonDownloadName none p = serverDownloadName p) := by
  refine ⟨?_, ?_, by decide, by decide, by decide, ?_, fun p => rfl,
    fun p => rfl⟩
  · intro path h
    simp [serverDownloadName, filenameBase, h]
  · intro path h
    simp [serverDownloadName, filenameBase, h]
  · intro f p hf
    rcases f with _ | ⟨c, cs⟩
    · exact absurd rfl hf
    · rfl

/-- Witness for C6 at concrete inputs: `/a` gives `a.pdf` (nonempty
branch), `-` gives `document.pdf` (empty branch), and the nonempty
explicit filename `report` gives `report.pdf`. -/
theorem filename_rules_witness :
    serverDownloadName "/a".toList = "a.pdf".toList ∧
    serverDownloadName "-".toList = "document.pdf".toList ∧
    exportButtonDownloadName (some "report".toList) "/a".toList
      = "report.pdf".toList := by
  refine ⟨?_, ?_, ?_⟩
  · have h := filename_rules.1 "/a".toList (by decide)
    rw [h]; decide
  · exact filename_rules.2.1 "-".toList (by decide)
  · exact filename_rules.2.2.2.2.2.1 "report".toList "/a".toList (by decide)

/-! ## DOM model.  An element is a tag, an attribute list, the
stylesheet-computed declarations that apply to it (`base`), its inline
style (`inl`, first binding wins, so a style write conses), and two
geometry oracles (bounding-rect height and scroll height); a document
node is a rose tree of elements. -/

abbrev PropList := List (String × String)

/-- Element data.  `base` stands for what the stylesheets give the
element; computed style is inline-over-base. -/
structure ElemData where
  tag : String
  attrs : PropList
  base : PropList
  inl : PropList
  rectHeight : Nat
  scrollH : Nat
deriving DecidableEq, Repr, Inhabited

inductive Dom where
  | el (d : ElemData) (kids : List Dom)

instance : Inhabited Dom := ⟨Dom.el default []⟩

def Dom.data : Dom → ElemData
  | .el d _ => d

def Dom.kids : Dom → List Dom
  | .el _ ks => ks

/-- Writing one inline style property (`el.style.x = v`). -/
def setInl (key v : String) (d : ElemData) : ElemData :=
  { d with inl := (key, v) :: d.inl }

/-- Replacing the whole inline style (`el.style.cssText = ...`). -/
def setCssText (props : PropList) (d : ElemData) : ElemData :=
  { d with inl := props }

/-- One computed style property: the inline binding if present, else
the stylesheet binding, else the initial value. -/
def computedProp (d : ElemData) (key dflt : String) : String :=
  match d.inl.lookup key with
  | some v => v
  | none => (d.base.lookup key).getD dflt

def computedPosition (d : ElemData) : String := computedProp d "position" "static"

def computedOverflow (d : ElemData) : String := computedProp d "overflow" "visible"

/-- Computed `overflow-y`.  The page scripts only ever write the
shorthand inline, so an inline `overflow` binding covers it; the
stylesheets may bind `overflow-y` directly or through the shorthand. -/
def computedOverflowY (d : ElemData) : String :=
  match d.inl.lookup "overflow" with
  | some v => v
  | none =>
    ((d.base.lookup "overflow-y").orElse fun _ => d.base.lookup "overflow").getD
      "visible"

/-- A selector is interpreted by its matching predicate on element
data (every selector the cleanup code uses is context-free). -/
abbrev Sel := ElemData → Bool

def classContains (needle : String) (d : ElemData) : Bool :=
  match d.attrs.lookup "class" with
  | some cls => strHasSub needle.toList cls.toList
  | none => false

def attrEq (key v : String) (d : ElemData) : Bool :=
  d.attrs.lookup key == some v

def attrPresent (key : String) (d : ElemData) : Bool :=
  (d.attrs.lookup key).isSome

def tagIs (t : String) (d : ElemData) : Bool := d.tag == t

mutual
def domSize : Dom → Nat
  | .el _ kids => 1 + domSizeL kids
def domSizeL : List Dom → Nat
  | [] => 0
  | k :: ks => domSize k + domSizeL ks
end

mutual
def qsaSub (s : Sel) : Dom → List Dom
  | .el d kids => (if s d then [Dom.el d kids] else []) ++ qsaSubL s kids
def qsaSubL (s : Sel) : List Dom → List Dom
  | [] => []
  | k :: ks => qsaSub s k ++ qsaSubL s ks
end

/-- `el.querySelectorAll`: matching strict descendants in document
order. -/
def qsaDesc (s : Sel) : Dom → List Dom
  | .el _ kids => qsaSubL s kids

/-- `el.querySelector`: the first matching strict descendant. -/
def queryDesc (s : Sel) (t : Dom) : Option Dom := (qsaDesc s t).head?

/-- The document: the root element inline style and the body tree. -/
structure DocState where
  docElemInl : PropList
  body : Dom

/-- `document.querySelector`: first match in the body tree, the body
element included. -/
def docQuery (s : Sel) (doc : DocState) : Option Dom :=
  (qsaSub s doc.body).head?

/- Net effect of collecting every match of a subtree condition with
`querySelectorAll` and removing each: every maximal matching subtree
below the root disappears (the root itself is never tested). -/
mutual
def stripWhere (cond : Dom → Bool) : Dom → Dom
  | .el d kids => .el d (stripWhereL cond kids)
def stripWhereL (cond : Dom → Bool) : List Dom → List Dom
  | [] => []
  | k :: ks =>
    if cond k then stripWhereL cond ks
    else stripWhere cond k :: stripWhereL cond ks
end

/- Apply a data rewrite to every node of the tree that matches a
selector (the root included). -/
mutual
def styleWhere (s : Sel) (f : ElemData → ElemData) : Dom → Dom
  | .el d kids => .el (if s d then f d else d) (styleWhereL s f kids)
def styleWhereL (s : Sel) (f : ElemData → ElemData) : List Dom → List Dom
  | [] => []
  | k :: ks => styleWhere s f k :: styleWhereL s f ks
end

/-- The `querySelectorAll`-then-mutate pattern: rewrite the matching
strict descendants, keep the root untouched. -/
def styleDesc (s : Sel) (f : ElemData → ElemData) : Dom → Dom
  | .el d kids => .el d (styleWhereL s f kids)

/-! ## DOM Sanitizer (`cleanupPageForPdf`, route-handler.ts lines
300-430), executed in page context as one transformation. -/

/-- The condition of the first removal pass:
`[class*="grid-cols-2"]`. -/
def gridCond (k : Dom) : Bool := classContains "grid-cols-2" k.data

/-- The condition of the second removal pass: a `[class*="@container"]`
element that still holds a grid block, or holds exactly two anchors. -/
def containerCond (k : Dom) : Bool :=
  classContains "@container" k.data &&
    ((queryDesc (fun d => classContains "grid-cols-2" d) k).isSome ||
      (qsaDesc (fun d => tagIs "a" d) k).length == 2)

/-- Lift a context-free selector to a subtree condition. -/
def selCond (s : Sel) : Dom → Bool := fun k => s k.data

/-- The inline style written on the clone
(`contentClone.style.cssText`, line 331). -/
def cloneCss : PropList :=
  [("max-width", "100%"), ("width", "100%"), ("margin", "0"),
   ("padding", "0"), ("background", "white")]

/-- The inline style written on `document.body` (line 318). -/
def bodyCss : PropList :=
  [("margin", "0"), ("padding", "0"), ("background", "white"),
   ("width", "100%"), ("max-width", "100%")]

/-- The inline style written on `document.documentElement`
(line 325). -/
def docElemCss : PropList :=
  [("margin", "0"), ("padding", "0"), ("background", "white")]

def applyCloneCss : Dom → Dom
  | .el d kids => .el (setCssText cloneCss d) kids

/-- Lines 353-362: read the computed style once; force a fixed or
sticky position to static, force a hidden overflow (either axis) to
visible. -/
def fixPosOverflow (d : ElemData) : ElemData :=
  let d1 :=
    if computedPosition d == "fixed" || computedPosition d == "sticky" then
      setInl "position" "static" d
    else d
  if computedOverflow d == "hidden" || computedOverflowY d == "hidden" then
    setInl "overflow" "visible" d1
  else d1

/-- `[data-state="open"], [data-state="closed"]`. -/
def dataStateSel : Sel := fun d =>
  attrEq "data-state" "open" d || attrEq "data-state" "closed" d

/-- Lines 365-376, in source order (innermost write first). -/
def accordionStyleReset (d : ElemData) : ElemData :=
  setInl "overflow" "visible" (setInl "display" "block"
    (setInl "visibility" "visible" (setInl "opacity" "1"
      (setInl "height" "auto" (setInl "position" "relative"
        (setInl "animation" "none" (setInl "transition" "none"
          (setInl "transform" "none" d))))))))

/-- Lines 378-389. -/
def accordionContentReset (d : ElemData) : ElemData :=
  setInl "overflow" "visible" (setInl "display" "block"
    (setInl "position" "relative" (setInl "animation" "none"
      (setInl "transition" "none" (setInl "transform" "none"
        (setInl "height" "auto" d))))))

/-- `[data-radix-accordion-root], [data-orientation]`. -/
def accordionRootSel : Sel := fun d =>
  attrPresent "data-radix-accordion-root" d || attrPresent "data-orientation" d

/-- Lines 392-399. -/
def accordionRootLayout (d : ElemData) : ElemData :=
  setInl "gap" "0" (setInl "flex-direction" "column" (setInl "display" "flex" d))

def accordionItemSel : Sel := fun d => attrPresent "data-radix-accordion-item" d

/-- Lines 401-406. -/
def accordionItemReset (d : ElemData) : ElemData :=
  setInl "height" "auto" (setInl "display" "block"
    (setInl "position" "relative" d))

/-- Lines 409-416. -/
def zeroTopSpace (d : ElemData) : ElemData :=
  setInl "padding-top" "0" (setInl "margin-top" "0" d)

/-- Zero the top margin and padding of the clone root and of its first
element child. -/
def zeroLeadingSpace : Dom → Dom
  | .el d kids =>
    match kids with
    | [] => .el (zeroTopSpace d) []
    | .el kd kkids :: rest =>
      .el (zeroTopSpace d) (.el (zeroTopSpace kd) kkids :: rest)

/-- The whole transformation applied to the detached clone, phases in
source order: clone inline-style reset, the two structural removal
passes, the removal-selector passes, the fixed-sticky-overflow fix on
every descendant, the disclosure-state style resets, the accordion
content and root and item layout resets, and the leading-space zeroing. -/
def sanitizeContent (removeSels accContentSels : List Sel) (content : Dom) : Dom :=
  let c1 := applyCloneCss content
  let c2 := stripWhere gridCond c1
  let c3 := stripWhere containerCond c2
  let c4 := removeSels.foldl (fun acc s => stripWhere (selCond s) acc) c3
  let c5 := styleDesc (fun _ => true) fixPosOverflow c4
  let c6 := styleDesc dataStateSel accordionStyleReset c5
  let c7 := accContentSels.foldl
    (fun acc s => styleDesc s accordionContentReset acc) c6
  let c8 := styleDesc accordionRootSel accordionRootLayout c7
  let c9 := styleDesc accordionItemSel accordionItemReset c8
  zeroLeadingSpace c9

/-- `cleanupPageForPdf`: locate the content container (no-op when the
selector matches nothing), deep-clone it, replace the body content
with the clone alone, reset the body and root element inline styles,
and run the clone transformation. -/
def cleanupPageForPdf (contentSel : Sel) (removeSels accContentSels : List Sel)
    (doc : DocState) : DocState :=
  match docQuery contentSel doc with
  | none => doc
  | some content =>
    { docElemInl := docElemCss
      body :=
        match doc.body with
        | .el bd _ =>
          .el (setCssText bodyCss bd)
            [sanitizeContent removeSels accContentSels content] }

/-! ## Height Measurer (route-handler.ts lines 127-135) -/

/-- The page-context height computation: bounding-rect height of the
content element plus 40, or the body scroll height when the selector
resolves to nothing. -/
def contentHeight (contentSel : Sel) (doc : DocState) : Nat :=
  match docQuery contentSel doc with
  | some e => e.data.rectHeight + 40
  | none => doc.body.data.scrollH

/-! ## Accordion Expander (`expandAccordions`, route-handler.ts lines
227-248).  A round snapshots every element matching the joined trigger
selectors, clicks each, and reports the count; the loop breaks on a
zero count and is bounded at five rounds.  What one click does to the
page is framework behaviour, abstracted as `clickEff`. -/

structure ExpandTrace where
  page : Dom
  roundCounts : List Nat

def expandRounds (clickEff : Dom → Nat → Dom) (s : Sel) :
    Nat → Dom → ExpandTrace
  | 0, page => ⟨page, []⟩
  | fuel + 1, page =>
    let found := (qsaSub s page).length
    let page2 := (List.range found).foldl clickEff page
    if found = 0 then ⟨page2, [found]⟩
    else
      let rest := expandRounds clickEff s fuel page2
      ⟨rest.page, found :: rest.roundCounts⟩

/-- `expandAccordions(page, selectors)`: the joined selector list is
the union of the trigger selectors; the loop runs at most five
rounds. -/
def expandAccordions (clickEff : Dom → Nat → Dom) (sels : List Sel)
    (page : Dom) : ExpandTrace :=
  expandRounds clickEff (fun d => sels.any fun s => s d) 5 page

/-! ## Concrete sample pages used by the witnesses -/

def samplePara : Dom := Dom.el ⟨"p", [], [], [], 0, 0⟩ []

def sampleAnchor : Dom := Dom.el ⟨"a", [], [], [], 0, 0⟩ []

def sampleNavCard : Dom :=
  Dom.el ⟨"div", [("class", "@container gap")], [], [], 0, 0⟩
    [sampleAnchor, sampleAnchor]

def sampleGridBlock : Dom :=
  Dom.el ⟨"div", [("class", "grid grid-cols-2")], [], [], 0, 0⟩
    [sampleAnchor, sampleAnchor]

def sampleAccordion : Dom :=
  Dom.el ⟨"div", [("data-state", "closed")], [("overflow", "hidden")], [], 0, 0⟩
    [samplePara]

def sampleToc : Dom :=
  Dom.el ⟨"nav", [("class", "toc")], [("position", "sticky")], [], 0, 0⟩ []

def sampleArticle : Dom :=
  Dom.el ⟨"article", [], [], [], 100, 100⟩
    [samplePara, sampleToc, sampleAccordion, sampleGridBlock, sampleNavCard]

def sampleBody : Dom := Dom.el ⟨"body", [], [], [], 0, 500⟩ [sampleArticle]

def sampleDoc : DocState := ⟨[], sampleBody⟩

def sampleContentSel : Sel := fun d => tagIs "article" d

def sampleRemoveSels : List Sel := [fun d => tagIs "nav" d]

/-- C5: the measured height is the content element's bounding-rect
height plus the fixed 40 padding when the content selector resolves,
and the body scroll height with no padding when it does not. -/
theorem height_measurer_rule (contentSel : Sel) (doc : DocState) :
    (∀ e, docQuery contentSel doc = some e →
      contentHeight contentSel doc = e.data.rectHeight + 40) ∧
    (docQuery contentSel doc = none →
      contentHeight contentSel doc = doc.body.data.scrollH) := by
  constructor
  · intro e h
    simp [contentHeight, h]
  · intro h
    simp [contentHeight, h]

/-- Witness for C5 on the sample page: the article (rect height 100)
gives 140; an unmatched selector gives the body scroll height 500. -/
theorem height_measurer_rule_witness :
    contentHeight sampleContentSel sampleDoc = 140 ∧
    contentHeight (fun d => tagIs "main" d) sampleDoc = 500 := by
  constructor
  · rw [(height_measurer_rule sampleContentSel sampleDoc).1 sampleArticle rfl]
    rfl
  · exact (height_measurer_rule (fun d => tagIs "main" d) sampleDoc).2 rfl

/-! ## Properties of the Accordion Expander -/

theorem expandRounds_length_le (clickEff : Dom → Nat → Dom) (s : Sel) :
    ∀ (fuel : Nat) (page : Dom),
      (expandRounds clickEff s fuel page).roundCounts.length ≤ fuel := by
  intro fuel
  induction fuel with
  | zero => intro page; simp [expandRounds]
  | succ n ih =>
    intro page
    simp only [expandRounds]
    split
    · simp
    · simp only [List.length_cons]
      exact Nat.succ_le_succ (ih _)

theorem expandRounds_interior_pos (clickEff : Dom → Nat → Dom) (s : Sel) :
    ∀ (fuel : Nat) (page : Dom),
      ∀ x ∈ (expandRounds clickEff s fuel page).roundCounts.dropLast, x ≠ 0 := by
  intro fuel
  induction fuel with
  | zero => intro page x hx; simp [expandRounds] at hx
  | succ n ih =>
    intro page x hx
    rcases hfound : (qsaSub s page).length with _ | m
    · simp [expandRounds, hfound] at hx
    · simp only [expandRounds, hfound, Nat.succ_ne_zero, if_false] at hx
      rcases hrest : (expandRounds clickEff s n
          ((List.range (m + 1)).foldl clickEff page)).roundCounts
        with _ | ⟨y, ys⟩
      · rw [hrest] at hx
        simp at hx
      · rw [hrest, List.dropLast_cons₂] at hx
        rcases List.mem_cons.mp hx with hx | hx
        · subst hx
          simp
        · have hmem := ih ((List.range (m + 1)).foldl clickEff page)
          rw [hrest] at hmem
          exact hmem x hx

theorem expandRounds_first_count (clickEff : Dom → Nat → Dom) (s : Sel)
    (fuel : Nat) (page : Dom) :
    (expandRounds clickEff s (fuel + 1) page).roundCounts.headI
      = (qsaSub s page).length := by
  simp only [expandRounds]
  split <;> rfl

/-- C4: the expander runs at most five rounds; the first round counts
exactly the elements matching the joined trigger selectors on the
incoming page; every round before the last found and clicked a nonzero
number of triggers (the loop stops as soon as a round counts zero);
and on a page where the trigger selectors match nothing it performs no
click, returns the page unchanged after a single zero-count round, and
raises nothing (it is a total function).  All of this holds for an
arbitrary click effect, so it covers any disclosure nesting depth. -/
theorem expandAccordions_bounded (clickEff : Dom → Nat → Dom)
    (sels : List Sel) (page : Dom) :
    (expandAccordions clickEff sels page).roundCounts.length ≤ 5 ∧
    (expandAccordions clickEff sels page).roundCounts.headI
      = (qsaSub (fun d => sels.any fun s => s d) page).length ∧
    (∀ x ∈ (expandAccordions clickEff sels page).roundCounts.dropLast, x ≠ 0) ∧
    ((qsaSub (fun d => sels.any fun s => s d) page).length = 0 →
      expandAccordions clickEff sels page = ⟨page, [0]⟩) := by
  refine ⟨expandRounds_length_le clickEff _ 5 page,
          expandRounds_first_count clickEff _ 4 page,
          expandRounds_interior_pos clickEff _ 5 page, ?_⟩
  intro h
  show expandRounds clickEff _ 5 page = _
  rw [show (5 : Nat) = 4 + 1 from rfl]
  simp [expandRounds, h]

/-- Witness for C4: on the sample body, which holds no button, the
expander performs no click and stops after one zero round. -/
theorem expandAccordions_bounded_witness :
    expandAccordions (fun p _ => p) [fun d => tagIs "button" d] sampleBody
      = ⟨sampleBody, [0]⟩ :=
  (expandAccordions_bounded (fun p _ => p) [fun d => tagIs "button" d]
    sampleBody).2.2.2 (by decide)

/-! ## Size accounting for the sanitizer -/

mutual
theorem styleWhere_size (s : Sel) (f : ElemData → ElemData) :
    ∀ t : Dom, domSize (styleWhere s f t) = domSize t
  | .el d kids => by
    simp [styleWhere, domSize, styleWhereL_size s f kids]
theorem styleWhereL_size (s : Sel) (f : ElemData → ElemData) :
    ∀ ks : List Dom, domSizeL (styleWhereL s f ks) = domSizeL ks
  | [] => by simp [styleWhereL, domSizeL]
  | k :: ks => by
    simp [styleWhereL, domSizeL, styleWhere_size s f k, styleWhereL_size s f ks]
end

theorem styleDesc_size (s : Sel) (f : ElemData → ElemData) (t : Dom) :
    domSize (styleDesc s f t) = domSize t := by
  rcases t with ⟨d, kids⟩
  simp [styleDesc, domSize, styleWhereL_size]

/- The total size of the maximal matching subtrees below the root:
what one `querySelectorAll`-and-remove pass deletes. -/
mutual
def strippedSize (cond : Dom → Bool) : Dom → Nat
  | .el _ kids => strippedSizeL cond kids
def strippedSizeL (cond : Dom → Bool) : List Dom → Nat
  | [] => 0
  | k :: ks =>
    (if cond k then domSize k else strippedSize cond k) + strippedSizeL cond ks
end

mutual
theorem stripWhere_size (cond : Dom → Bool) :
    ∀ t : Dom, domSize (stripWhere cond t) + strippedSize cond t = domSize t
  | .el d kids => by
    have h := stripWhereL_size cond kids
    simp only [stripWhere, strippedSize, domSize]
    omega
theorem stripWhereL_size (cond : Dom → Bool) :
    ∀ ks : List Dom,
      domSizeL (stripWhereL cond ks) + strippedSizeL cond ks = domSizeL ks
  | [] => by simp [stripWhereL, strippedSizeL, domSizeL]
  | k :: ks => by
    have h1 := stripWhere_size cond k
    have h2 := stripWhereL_size cond ks
    simp only [stripWhereL, strippedSizeL, domSizeL]
    split
    all_goals first
      | omega
      | (simp only [domSizeL]; omega)
end

theorem zeroLeadingSpace_size (t : Dom) :
    domSize (zeroLeadingSpace t) = domSize t := by
  rcases t with ⟨d, _ | ⟨⟨kd, kkids⟩, rest⟩⟩
  · rfl
  · simp [zeroLeadingSpace, domSize, domSizeL]

theorem applyCloneCss_size (t : Dom) : domSize (applyCloneCss t) = domSize t := by
  rcases t with ⟨d, kids⟩
  rfl

/-- The loss of the removal-selector passes, pass by pass on the
successive trees. -/
def lossFold (removeSels : List Sel) (t : Dom) : Nat :=
  match removeSels with
  | [] => 0
  | s :: ss => strippedSize (selCond s) t + lossFold ss (stripWhere (selCond s) t)

/-- Everything the three removal stages delete from the clone. -/
def removalLoss (removeSels : List Sel) (t : Dom) : Nat :=
  strippedSize gridCond t
    + strippedSize containerCond (stripWhere gridCond t)
    + lossFold removeSels (stripWhere containerCond (stripWhere gridCond t))

theorem lossFold_size (removeSels : List Sel) :
    ∀ t : Dom,
      domSize (removeSels.foldl (fun acc s => stripWhere (selCond s) acc) t)
        + lossFold removeSels t = domSize t := by
  induction removeSels with
  | nil => intro t; simp [lossFold]
  | cons s ss ih =>
    intro t
    have h1 := stripWhere_size (selCond s) t
    have h2 := ih (stripWhere (selCond s) t)
    simp only [List.foldl_cons, lossFold]
    omega

theorem sanitizeContent_size (removeSels accSels : List Sel) (content : Dom) :
    domSize (sanitizeContent removeSels accSels content)
      + removalLoss removeSels (applyCloneCss content) = domSize content := by
  have hgrid := stripWhere_size gridCond (applyCloneCss content)
  have hcont := stripWhere_size containerCond
    (stripWhere gridCond (applyCloneCss content))
  have hfold := lossFold_size removeSels
    (stripWhere containerCond (stripWhere gridCond (applyCloneCss content)))
  have hstyle : ∀ t : Dom,
      domSize (accSels.foldl (fun acc s => styleDesc s accordionContentReset acc) t)
        = domSize t := by
    induction accSels with
    | nil => intro t; simp
    | cons s ss ih =>
      intro t
      simp only [List.foldl_cons]
      rw [ih, styleDesc_size]
  simp only [sanitizeContent]
  rw [zeroLeadingSpace_size, styleDesc_size, styleDesc_size, hstyle,
    styleDesc_size, styleDesc_size]
  have happ := applyCloneCss_size content
  simp only [removalLoss]
  omega

/-! ## Style goodness: no computed fixed or sticky position, no
computed hidden overflow -/

def goodData (d : ElemData) : Bool :=
  !(computedPosition d == "fixed") && !(computedPosition d == "sticky")
    && !(computedOverflow d == "hidden")

mutual
def allGood : Dom → Bool
  | .el d kids => goodData d && allGoodL kids
def allGoodL : List Dom → Bool
  | [] => true
  | k :: ks => allGood k && allGoodL ks
end

/-- Goodness of every strict descendant (the scope the cleanup code
actually rewrites). -/
def allDescGood : Dom → Bool
  | .el _ kids => allGoodL kids

theorem computedProp_setInl_same (d : ElemData) (key v dflt : String) :
    computedProp (setInl key v d) key dflt = v := by
  simp [computedProp, setInl, List.lookup]

theorem computedProp_setInl_other (d : ElemData) (key key2 v dflt : String)
    (h : (key == key2) = false) :
    computedProp (setInl key2 v d) key dflt = computedProp d key dflt := by
  simp [computedProp, setInl, List.lookup, h]

theorem goodData_fixPosOverflow (d : ElemData) :
    goodData (fixPosOverflow d) = true := by
  simp only [fixPosOverflow]
  split <;> split <;>
    simp_all [goodData, computedPosition, computedOverflow,
      computedProp_setInl_same, computedProp_setInl_other]

theorem goodData_accordionStyleReset (d : ElemData) :
    goodData (accordionStyleReset d) = true := by
  simp [accordionStyleReset, goodData, computedPosition, computedOverflow,
    computedProp_setInl_same, computedProp_setInl_other]

theorem goodData_accordionContentReset (d : ElemData) :
    goodData (accordionContentReset d) = true := by
  simp [accordionContentReset, goodData, computedPosition, computedOverflow,
    computedProp_setInl_same, computedProp_setInl_other]

theorem goodData_accordionRootLayout (d : ElemData) (h : goodData d = true) :
    goodData (accordionRootLayout d) = true := by
  simp_all [accordionRootLayout, goodData, computedPosition, computedOverflow,
    computedProp_setInl_other]

theorem goodData_accordionItemReset (d : ElemData) (h : goodData d = true) :
    goodData (accordionItemReset d) = true := by
  simp_all [accordionItemReset, goodData, computedPosition, computedOverflow,
    computedProp_setInl_same, computedProp_setInl_other]

theorem goodData_zeroTopSpace (d : ElemData) (h : goodData d = true) :
    goodData (zeroTopSpace d) = true := by
  simp_all [zeroTopSpace, goodData, computedPosition, computedOverflow,
    computedProp_setInl_other]

mutual
theorem allGood_styleWhere (s : Sel) (f : ElemData → ElemData)
    (hf : ∀ d, goodData d = true → goodData (f d) = true) :
    ∀ t : Dom, allGood t = true → allGood (styleWhere s f t) = true
  | .el d kids => by
    intro h
    simp only [allGood, styleWhere, Bool.and_eq_true] at h ⊢
    refine ⟨?_, allGoodL_styleWhereL s f hf kids h.2⟩
    split
    · exact hf d h.1
    · exact h.1
theorem allGoodL_styleWhereL (s : Sel) (f : ElemData → ElemData)
    (hf : ∀ d, goodData d = true → goodData (f d) = true) :
    ∀ ks : List Dom, allGoodL ks = true → allGoodL (styleWhereL s f ks) = true
  | [] => by intro h; simp [styleWhereL, allGoodL]
  | k :: ks => by
    intro h
    simp only [allGoodL, styleWhereL, Bool.and_eq_true] at h ⊢
    exact ⟨allGood_styleWhere s f hf k h.1, allGoodL_styleWhereL s f hf ks h.2⟩
end

mutual
theorem allGood_fixAll (f : ElemData → ElemData)
    (hf : ∀ d, goodData (f d) = true) :
    ∀ t : Dom, allGood (styleWhere (fun _ => true) f t) = true
  | .el d kids => by
    simp only [styleWhere, allGood, Bool.and_eq_true, if_true]
    exact ⟨hf d, allGoodL_fixAllL f hf kids⟩
theorem allGoodL_fixAllL (f : ElemData → ElemData)
    (hf : ∀ d, goodData (f d) = true) :
    ∀ ks : List Dom, allGoodL (styleWhereL (fun _ => true) f ks) = true
  | [] => by simp [styleWhereL, allGoodL]
  | k :: ks => by
    simp only [styleWhereL, allGoodL, Bool.and_eq_true]
    exact ⟨allGood_fixAll f hf k, allGoodL_fixAllL f hf ks⟩
end

theorem allDescGood_styleDesc_pres (s : Sel) (f : ElemData → ElemData)
    (hf : ∀ d, goodData d = true → goodData (f d) = true)
    (t : Dom) (h : allDescGood t = true) :
    allDescGood (styleDesc s f t) = true := by
  rcases t with ⟨d, kids⟩
  simp only [styleDesc, allDescGood] at h ⊢
  exact allGoodL_styleWhereL s f hf kids h

theorem allDescGood_styleDesc_fix (t : Dom) :
    allDescGood (styleDesc (fun _ => true) fixPosOverflow t) = true := by
  rcases t with ⟨d, kids⟩
  simp only [styleDesc, allDescGood]
  exact allGoodL_fixAllL fixPosOverflow goodData_fixPosOverflow kids

theorem allDescGood_accFold (accSels : List Sel) :
    ∀ t, allDescGood t = true →
      allDescGood (accSels.foldl
        (fun acc s => styleDesc s accordionContentReset acc) t) = true := by
  induction accSels with
  | nil => intro t h; simpa using h
  | cons s ss ih =>
    intro t h
    simp only [List.foldl_cons]
    exact ih _ (allDescGood_styleDesc_pres s _
      (fun d _ => goodData_accordionContentReset d) t h)

theorem allDescGood_zeroLeadingSpace (t : Dom) (h : allDescGood t = true) :
    allDescGood (zeroLeadingSpace t) = true := by
  rcases t with ⟨d, _ | ⟨⟨kd, kkids⟩, rest⟩⟩
  · simpa using h
  · simp only [zeroLeadingSpace, allDescGood, allGoodL, allGood,
      Bool.and_eq_true] at h ⊢
    exact ⟨⟨goodData_zeroTopSpace kd h.1.1, h.1.2⟩, h.2⟩

theorem allDescGood_sanitize (removeSels accSels : List Sel) (content : Dom) :
    allDescGood (sanitizeContent removeSels accSels content) = true := by
  simp only [sanitizeContent]
  apply allDescGood_zeroLeadingSpace
  apply allDescGood_styleDesc_pres _ _ (fun d h => goodData_accordionItemReset d h)
  apply allDescGood_styleDesc_pres _ _ (fun d h => goodData_accordionRootLayout d h)
  apply allDescGood_accFold
  apply allDescGood_styleDesc_pres _ _ (fun d _ => goodData_accordionStyleReset d)
  exact allDescGood_styleDesc_fix _

/-- C3 (amended): when the content selector matches, after
`cleanupPageForPdf` the document body holds exactly one root subtree,
the sanitized clone of the content container; its node count is the
original count minus the total size of the subtrees deleted by the
navigation-block heuristic and the removal selectors; and zero
elements strictly below the clone root have a computed fixed or sticky
position or a computed hidden overflow.  (The code never rewrites the
clone root itself, so the root is excluded; see the
counterexample.) -/
theorem cleanup_postcondition (contentSel : Sel) (removeSels accSels : List Sel)
    (doc : DocState) (content : Dom)
    (h : docQuery contentSel doc = some content) :
    (cleanupPageForPdf contentSel removeSels accSels doc).body.kids
      = [sanitizeContent removeSels accSels content] ∧
    allDescGood (sanitizeContent removeSels accSels content) = true ∧
    domSize (sanitizeContent removeSels accSels content)
      + removalLoss removeSels (applyCloneCss content) = domSize content := by
  refine ⟨?_, allDescGood_sanitize removeSels accSels content,
    sanitizeContent_size removeSels accSels content⟩
  rcases hb : doc.body with ⟨bd, bkids⟩
  simp [cleanupPageForPdf, h, hb, Dom.kids]

/-- Witness for C3 on the sample page (a paragraph, a sticky nav
matched by the removal selectors, a closed accordion with hidden
overflow, a grid block and a two-anchor container card). -/
theorem cleanup_postcondition_witness :
    (cleanupPageForPdf sampleContentSel sampleRemoveSels [] sampleDoc).body.kids
      = [sanitizeContent sampleRemoveSels [] sampleArticle] ∧
    allDescGood (sanitizeContent sampleRemoveSels [] sampleArticle) = true ∧
    domSize (sanitizeContent sampleRemoveSels [] sampleArticle)
      + removalLoss sampleRemoveSels (applyCloneCss sampleArticle)
      = domSize sampleArticle :=
  cleanup_postcondition sampleContentSel sampleRemoveSels [] sampleDoc
    sampleArticle rfl

/-! A concrete page refuting C3 as literally stated.  The article
itself carries `position: fixed` from the stylesheet; the cleanup code
only rewrites strict descendants of the clone
(`contentClone.querySelectorAll`), so the sanitized subtree still
holds an element whose computed position is fixed — its root.  The
aside matched by the removal selector has a child, so the resulting
descendant count also drops by two, not by the one matched element. -/

def cexSpan : Dom := Dom.el ⟨"span", [], [], [], 0, 0⟩ []

def cexAside : Dom :=
  Dom.el ⟨"aside", [("class", "sidebar")], [], [], 0, 0⟩ [cexSpan]

def cexPara : Dom := Dom.el ⟨"p", [], [], [], 0, 0⟩ []

def cexArticle : Dom :=
  Dom.el ⟨"article", [], [("position", "fixed")], [], 100, 100⟩
    [cexPara, cexAside]

def cexDoc : DocState := ⟨[], Dom.el ⟨"body", [], [], [], 0, 500⟩ [cexArticle]⟩

def cexContentSel : Sel := fun d => tagIs "article" d

def cexRemoveSels : List Sel := [fun d => tagIs "aside" d]

/-- Counterexample to C3 as stated: on `cexDoc` the body does hold
exactly one subtree, but that subtree is not free of computed
fixed-position elements (its root is fixed, so `allGood` is false),
and its node count is 2 while the original count 4 minus the 1 element
matched by the removal selectors would demand 3. -/
theorem cleanup_claim_counterexample :
    (cleanupPageForPdf cexContentSel cexRemoveSels [] cexDoc).body.kids.length
      = 1 ∧
    allGood
      ((cleanupPageForPdf cexContentSel cexRemoveSels [] cexDoc).body.kids.headI)
      = false ∧
    computedPosition
      ((cleanupPageForPdf cexContentSel cexRemoveSels [] cexDoc).body.kids.headI.data)
      = "fixed" ∧
    domSize cexArticle = 4 ∧
    (qsaDesc (fun d => tagIs "aside" d) cexArticle).length = 1 ∧
    (qsaDesc (fun d => classContains "grid-cols-2" d) cexArticle).length = 0 ∧
    (qsaDesc (fun d => classContains "@container" d) cexArticle).length = 0 ∧
    domSize
      ((cleanupPageForPdf cexContentSel cexRemoveSels [] cexDoc).body.kids.headI)
      = 2 := by
  refine ⟨by decide, by decide, by decide, by decide, by decide, by decide,
    by decide, by decide⟩

/-! ## Lazy-Content Forcer, forced image reload phase
(`triggerLazyImages`, route-handler.ts lines 276-292).  A per-image
promise is modelled by the event that eventually fires on the image;
the code installs the same `resolve` for load and for error, so the
promise settles successfully either way. -/

structure ImgState where
  loadingAttr : Option String
  complete : Bool
  naturalHeight : Nat
  src : String
deriving DecidableEq, Repr

inductive ImgEvent where
  | load
  | error
deriving DecidableEq, Repr

inductive PromiseOutcome where
  | resolved
  | rejected (e : String)
deriving DecidableEq, Repr

/-- The wait for one image: an already-complete image with a nonzero
natural height resolves immediately; otherwise the handler installed
on the load event and the handler installed on the error event both
call `resolve`, after the source is cleared and restored. -/
def imageAwait (img : ImgState) (ev : ImgEvent) : PromiseOutcome :=
  if img.complete && decide (0 < img.naturalHeight) then .resolved
  else
    match ev with
    | .load => .resolved
    | .error => .resolved

/-- `img.removeAttribute("loading")`. -/
def removeLoadingAttr (img : ImgState) : ImgState :=
  { img with loadingAttr := none }

/-- `Promise.all`: rejected as soon as one member is rejected,
resolved when all members resolve. -/
def promiseAll (ps : List PromiseOutcome) : PromiseOutcome :=
  match ps.find? (fun p => match p with
    | .resolved => false
    | .rejected _ => true) with
  | some (.rejected e) => .rejected e
  | _ => .resolved

/-- The whole reload phase: strip the deferred-loading hint from every
image, then await all per-image promises concurrently. -/
def lazyImagesPhase (imgs : List ImgState) (evs : List ImgEvent) :
    PromiseOutcome :=
  promiseAll (List.zipWith imageAwait (imgs.map removeLoadingAttr) evs)

theorem imageAwait_resolved (img : ImgState) (ev : ImgEvent) :
    imageAwait img ev = .resolved := by
  rcases ev with _ | _ <;> simp [imageAwait]

theorem promiseAll_resolved_cons (p : PromiseOutcome) (ps : List PromiseOutcome)
    (hp : p = .resolved) : promiseAll (p :: ps) = promiseAll ps := by
  subst hp
  simp [promiseAll, List.find?]

/-- C8: a failing image is treated exactly like a completed one — the
error event resolves the per-image wait just as the load event does —
and the whole reload phase settles successfully for every image list
and every combination of load and error events, so a broken image can
never reject the phase or abort the export. -/
theorem broken_image_never_rejects :
    (∀ img : ImgState, imageAwait img .error = .resolved ∧
      imageAwait img .error = imageAwait img .load) ∧
    (∀ (imgs : List ImgState) (evs : List ImgEvent),
      lazyImagesPhase imgs evs = .resolved) := by
  constructor
  · intro img
    exact ⟨imageAwait_resolved img .error,
      (imageAwait_resolved img .error).trans (imageAwait_resolved img .load).symm⟩
  · intro imgs evs
    unfold lazyImagesPhase
    generalize (imgs.map removeLoadingAttr) = l
    induction l generalizing evs with
    | nil => simp [promiseAll, List.find?]
    | cons x xs ih =>
      rcases evs with _ | ⟨e, es⟩
      · simp [promiseAll, List.find?]
      · rw [List.zipWith_cons_cons,
          promiseAll_resolved_cons _ _ (imageAwait_resolved x e)]
        exact ih es

/-! ## Render Orchestrator (`createPdfExportHandler`, route-handler.ts
lines 68-166).  Every awaited browser call is an oracle returning
success or a thrown error; the `try` block is the exception-propagating
sequence of those calls and the `catch` block closes the browser when
one was launched.  `browserCloses` counts `browser.close()` calls. -/

inductive StepOutcome (α : Type) where
  | ok (a : α)
  | err (msg : String)
deriving DecidableEq, Repr

/-- One oracle per awaited browser call of the handler, in source
order. -/
structure PipelineEnv where
  launchStep : StepOutcome Unit
  newPageStep : StepOutcome Unit
  setCookieStep : StepOutcome Unit
  setViewportStep : StepOutcome Unit
  gotoStep : StepOutcome Unit
  expandStep : StepOutcome Unit
  lazyStep : StepOutcome Unit
  cleanupStep : StepOutcome Unit
  transformStep : StepOutcome Unit
  measureStep : StepOutcome Nat
  pdfStep : StepOutcome (List Nat)
deriving DecidableEq, Repr

def liftStep : StepOutcome α → Except String α
  | .ok a => .ok a
  | .err e => .error e

/-- Exception propagation of one awaited statement. -/
def seqStep (s : Except String Unit) (rest : Except String α) :
    Except String α :=
  match s with
  | .ok _ => rest
  | .error e => .error e

/-- `host.split(":")[0]`. -/
def bareHost (host : Str) : Str := (splitOnChar ':' host).headI

/-- `protocol.replace(":", "")`: drop the first colon. -/
def removeFirstColon : Str → Str
  | [] => []
  | c :: cs => if c = ':' then cs else c :: removeFirstColon cs

/-- The `try` block after a successful launch: open the page, inject
the parsed cookies when the header is nonempty and parsing produced at
least one record, set the viewport, navigate, run the enabled
page-context stages, measure, rasterize. -/
def runPipeline (cfg : ResolvedConfig) (domain : Str) (isSecure : Bool)
    (baseUrl : Str) (cookieHeader : Str) (env : PipelineEnv) :
    Except String (List Nat) :=
  seqStep (liftStep env.newPageStep) <|
  seqStep (if !cookieHeader.isEmpty
             && !(parseCookies cookieHeader domain isSecure baseUrl).isEmpty
           then liftStep env.setCookieStep else .ok ()) <|
  seqStep (liftStep env.setViewportStep) <|
  seqStep (liftStep env.gotoStep) <|
  seqStep (if cfg.expandAccordions then liftStep env.expandStep else .ok ()) <|
  seqStep (if cfg.triggerLazyImages then liftStep env.lazyStep else .ok ()) <|
  seqStep (liftStep env.cleanupStep) <|
  seqStep (match cfg.beforePdfGeneration with
           | some ts => if ts.isEmpty then .ok () else liftStep env.transformStep
           | none => .ok ()) <|
  match liftStep env.measureStep with
  | .error e => .error e
  | .ok _ => liftStep env.pdfStep

/-- The request data the handler reads. -/
structure HandlerRequest where
  path : Option Str
  protocolRaw : Str
  hostHeader : Option Str
  cookieHeader : Option Str
deriving DecidableEq, Repr

def handlerHost (req : HandlerRequest) : Str :=
  req.hostHeader.getD "localhost:3000".toList

def handlerProtocol (req : HandlerRequest) : Str :=
  removeFirstColon req.protocolRaw

def handlerBaseUrl (req : HandlerRequest) : Str :=
  handlerProtocol req ++ "://".toList ++ handlerHost req

/-- The pipeline call the handler makes once a browser is up. -/
def handlerPipeline (arg : HandlerArg) (env : PipelineEnv)
    (req : HandlerRequest) : Except String (List Nat) :=
  runPipeline (createHandlerConfig arg) (bareHost (handlerHost req))
    (handlerProtocol req == "https".toList) (handlerBaseUrl req)
    (req.cookieHeader.getD []) env

/-- What a handler response carries. -/
inductive ResponseBody where
  | pdfAttachment (bytes : List Nat) (filename : Str)
  | jsonError (error : String) (details : Option String)
deriving DecidableEq, Repr

structure HandlerResult where
  status : Nat
  body : ResponseBody
  browserCloses : Nat
deriving DecidableEq, Repr

/-- The handler returned by `createPdfExportHandler`: missing path
gives 400 before any launch; a launch error gives 500 with no close; a
pipeline error gives 500 with the stringified cause and one close in
the catch block; success closes once and returns the PDF payload with
the derived attachment name. -/
def runExportHandler (arg : HandlerArg) (env : PipelineEnv)
    (req : HandlerRequest) : HandlerResult :=
  match req.path with
  | none => ⟨400, .jsonError "Missing path parameter" none, 0⟩
  | some p =>
    if p.isEmpty then ⟨400, .jsonError "Missing path parameter" none, 0⟩
    else
    match liftStep env.launchStep with
    | .error e => ⟨500, .jsonError "Failed to generate PDF" (some e), 0⟩
    | .ok _ =>
      match handlerPipeline arg env req with
      | .error e => ⟨500, .jsonError "Failed to generate PDF" (some e), 1⟩
      | .ok bytes => ⟨200, .pdfAttachment bytes (serverDownloadName p), 1⟩

/-- C2: with the path present and the launch successful, an error
thrown at any later pipeline stage makes the handler close the browser
exactly once and return the 500 failure report with the generic
message and the stringified cause; a PDF body is returned only when
the whole pipeline succeeded, so no failing request ever receives a
PDF payload; and in every launched case the browser is closed exactly
once. -/
theorem pipeline_failure_handling (arg : HandlerArg) (env : PipelineEnv)
    (req : HandlerRequest) (p : Str)
    (hp : req.path = some p) (hpne : p.isEmpty = false)
    (hlaunch : env.launchStep = .ok ()) :
    (∀ e, handlerPipeline arg env req = .error e →
      runExportHandler arg env req
        = ⟨500, .jsonError "Failed to generate PDF" (some e), 1⟩) ∧
    (∀ bytes fn, (runExportHandler arg env req).body
        = .pdfAttachment bytes fn →
      handlerPipeline arg env req = .ok bytes) ∧
    (runExportHandler arg env req).browserCloses = 1 := by
  rcases hres : handlerPipeline arg env req with e | bytes
  · refine ⟨?_, ?_, ?_⟩
    · intro e2 he2
      injection he2 with he2
      subst he2
      simp [runExportHandler, hp, hpne, hlaunch, liftStep, hres]
    · intro bytes fn hbody
      simp [runExportHandler, hp, hpne, hlaunch, liftStep, hres] at hbody
    · simp [runExportHandler, hp, hpne, hlaunch, liftStep, hres]
  · refine ⟨?_, ?_, ?_⟩
    · intro e2 he2
      exact absurd he2 (by simp)
    · intro bytes2 fn hbody
      simp only [runExportHandler, hp, hpne, hlaunch, liftStep, hres,
        if_neg Bool.false_ne_true] at hbody
      injection hbody with h1 h2
      subst h1
      rfl
    · simp [runExportHandler, hp, hpne, hlaunch, liftStep, hres]

/-- Witness for C2: a navigation timeout with everything else healthy
yields the 500 report with the cause and a single browser close, on a
concrete request. -/
theorem pipeline_failure_handling_witness :
    runExportHandler .noArg
      ⟨.ok (), .ok (), .ok (), .ok (), .err "TimeoutError", .ok (), .ok (),
        .ok (), .ok (), .ok 100, .ok [1]⟩
      ⟨some "/docs".toList, "https:".toList, some "example.com".toList,
        some "sid=abc".toList⟩
      = ⟨500, .jsonError "Failed to generate PDF" (some "TimeoutError"), 1⟩ :=
  (pipeline_failure_handling .noArg
    ⟨.ok (), .ok (), .ok (), .ok (), .err "TimeoutError", .ok (), .ok (),
      .ok (), .ok (), .ok 100, .ok [1]⟩
    ⟨some "/docs".toList, "https:".toList, some "example.com".toList,
      some "sid=abc".toList⟩
    "/docs".toList rfl rfl rfl).1 "TimeoutError" rfl
